import Mathlib

/-!
Verification of the shared-state synchronization server of the pi-captive
repository (backend server: Express + Socket.io, file `server.js`).

The server keeps three in-memory collections
(`state.messages`, `state.sounds`, `state.canvasData`), serves read-only
HTTP views of them, and relays client events
(`chat:message`, `noise:add`, `canvas:update`, `canvas:clear`) to the
connected clients.  The Node runtime is single-threaded, so each event
handler runs to completion before the next one starts; we model every
handler as a pure function from server state (plus the event payload)
to a new server state together with a list of emitted broadcasts.
-/

namespace PiCaptive

/-- JavaScript `Array.prototype.slice(-k)` (for `k ≥ 1`): the last `k`
elements of the array, or the whole array when it is shorter than `k`.
With natural-number truncated subtraction `l.drop (l.length - k)` computes
exactly that in all cases. -/
def sliceLast (k : Nat) (l : List α) : List α := l.drop (l.length - k)

/-- Shape of a `chat:message` payload sent by the portal client
(`{id, name, text, timestamp}`).  The server treats it as an opaque
object; it only ever logs `name` and `text`. -/
structure Message where
  id : Nat
  name : String
  text : String
  timestamp : Nat
deriving Repr, DecidableEq

/-- Shape of a `noise:add` payload (`{id, name, data, timestamp}`), where
`data` is the base64-encoded audio payload.  The server never inspects
`data`. -/
structure Sound where
  id : Nat
  name : String
  data : String
  timestamp : Nat
deriving Repr, DecidableEq

/-- Socket identifier of a connected client. -/
abbrev ConnId := Nat

/-- The `state` object of `server.js`:
`{ messages: [], sounds: [], canvasData: null }`. -/
structure ServerState where
  messages : List Message
  sounds : List Sound
  canvasData : Option String
deriving Repr, DecidableEq

/-- The value `state` is initialised with. -/
def initialState : ServerState :=
  { messages := [], sounds := [], canvasData := none }

/-- Addressing of one socket.io emission: `io.emit` reaches every
connected socket, `socket.broadcast.emit` every connected socket except
the sender, `socket.emit` only the socket itself. -/
inductive Target where
  | all : Target
  | allExceptSender (sender : ConnId) : Target
  | onlyTo (c : ConnId) : Target
deriving Repr, DecidableEq

/-- The server-to-client events of `server.js` with their payloads. -/
inductive OutEvent where
  | chatMessage (m : Message) : OutEvent
  | noiseAdd (s : Sound) : OutEvent
  | canvasUpdate (d : Option String) : OutEvent
  | canvasClear : OutEvent
  | init (messages : List Message) (sounds : List Sound)
      (canvasData : Option String) : OutEvent
deriving Repr, DecidableEq

/-- One emission performed by a handler: an event plus its addressing. -/
structure Emission where
  event : OutEvent
  target : Target
deriving Repr, DecidableEq

/-- Handler of `socket.on('chat:message')`: push the message, trim the
log to the last 100 entries when it exceeds 100, then `io.emit` the
message to all clients. -/
def onChatMessage (st : ServerState) (message : Message) :
    ServerState × List Emission :=
  let pushed := st.messages ++ [message]
  let kept := if pushed.length > 100 then sliceLast 100 pushed else pushed
  ({ st with messages := kept }, [⟨.chatMessage message, .all⟩])

/-- Handler of `socket.on('noise:add')`: push the sound, trim the log to
the last 30 entries when it exceeds 30, then `io.emit` the sound to all
clients.  The payload is never inspected: no size check happens. -/
def onNoiseAdd (st : ServerState) (sound : Sound) :
    ServerState × List Emission :=
  let pushed := st.sounds ++ [sound]
  let kept := if pushed.length > 30 then sliceLast 30 pushed else pushed
  ({ st with sounds := kept }, [⟨.noiseAdd sound, .all⟩])

/-- Handler of `socket.on('canvas:update')`: store the payload
unconditionally (absent payloads arrive as `none`) and
`socket.broadcast.emit` it to every client but the sender. -/
def onCanvasUpdate (sender : ConnId) (st : ServerState)
    (data : Option String) : ServerState × List Emission :=
  ({ st with canvasData := data }, [⟨.canvasUpdate data, .allExceptSender sender⟩])

/-- Handler of `socket.on('canvas:clear')`: reset `canvasData` to `null`
and `io.emit` the clear to all clients, the sender included. -/
def onCanvasClear (st : ServerState) : ServerState × List Emission :=
  ({ st with canvasData := none }, [⟨.canvasClear, .all⟩])

/-- The hydration performed inside `io.on('connection')`:
`socket.emit('init', {messages: state.messages.slice(-50),
sounds: state.sounds.slice(-20), canvasData: state.canvasData})`,
addressed only to the new socket. -/
def onConnection (st : ServerState) (c : ConnId) : List Emission :=
  [⟨.init (sliceLast 50 st.messages) (sliceLast 20 st.sounds) st.canvasData,
    .onlyTo c⟩]

/-- Body of `GET /api/messages`: `state.messages.slice(-50)`. -/
def apiMessages (st : ServerState) : List Message := sliceLast 50 st.messages

/-- Body of `GET /api/sounds`: `state.sounds.slice(-20)`. -/
def apiSounds (st : ServerState) : List Sound := sliceLast 20 st.sounds

/-- Body of `GET /api/canvas`: `{ data: state.canvasData }`. -/
def apiCanvas (st : ServerState) : Option String := st.canvasData

/-- A JSON value, used to state facts about the exact wire shape of HTTP
responses (field names included). -/
inductive JValue where
  | null : JValue
  | bool (b : Bool) : JValue
  | num (n : Int) : JValue
  | str (s : String) : JValue
  | arr (xs : List JValue) : JValue
  | obj (fields : List (String × JValue)) : JValue

/-- Field names of a JSON object, in order. -/
def jKeys : JValue → List String
  | .obj fields => fields.map Prod.fst
  | _ => []

/-- JavaScript double-negation `!!v` applied to `state.canvasData`:
`null`/`undefined` and the empty string are falsy, every other string is
truthy. -/
def jsTruthy : Option String → Bool
  | none => false
  | some s => !(s == "")

/-- The client-to-server events handled inside `io.on('connection')`. -/
inductive ClientEvent where
  | chatMessage (m : Message) : ClientEvent
  | noiseAdd (s : Sound) : ClientEvent
  | canvasUpdate (d : Option String) : ClientEvent
  | canvasClear : ClientEvent
deriving Repr, DecidableEq

/-- Dispatch of one client event to its handler. -/
def dispatch (sender : ConnId) (ev : ClientEvent) (st : ServerState) :
    ServerState × List Emission :=
  match ev with
  | .chatMessage m => onChatMessage st m
  | .noiseAdd s => onNoiseAdd st s
  | .canvasUpdate d => onCanvasUpdate sender st d
  | .canvasClear => onCanvasClear st

/-- Whole-process state: the shared store plus the set of currently
connected sockets (socket.io's registry, whose size is
`io.engine.clientsCount`). -/
structure SystemState where
  store : ServerState
  conns : List ConnId
deriving Repr, DecidableEq

/-- Process state at server start. -/
def initialSystem : SystemState := { store := initialState, conns := [] }

/-- The externally triggered transitions of the server process:
a socket connects, a socket disconnects, or a connected socket sends one
client event. -/
inductive SysEvent where
  | connect (c : ConnId) : SysEvent
  | disconnect (c : ConnId) : SysEvent
  | client (sender : ConnId) (ev : ClientEvent) : SysEvent
deriving Repr, DecidableEq

/-- One step of the server process.  Node's event loop runs each handler
to completion, so a step is atomic.  A connecting socket is registered
and immediately hydrated with `init`; a disconnecting socket is removed
from the registry; a client event goes through `dispatch`. -/
def sysStep (sys : SystemState) (e : SysEvent) : SystemState × List Emission :=
  match e with
  | .connect c => ({ sys with conns := sys.conns ++ [c] }, onConnection sys.store c)
  | .disconnect c => ({ sys with conns := sys.conns.erase c }, [])
  | .client sender ev =>
      let r := dispatch sender ev sys.store
      ({ sys with store := r.1 }, r.2)

/-- Run a sequence of steps, keeping only the final state. -/
def sysRun (sys : SystemState) (es : List SysEvent) : SystemState :=
  es.foldl (fun s e => (sysStep s e).1) sys

/-- The chat messages a sequence of steps appends, in arrival order. -/
def insertedMessages (es : List SysEvent) : List Message :=
  es.filterMap fun e =>
    match e with
    | .client _ (.chatMessage m) => some m
    | _ => none

/-- The sounds a sequence of steps appends, in arrival order. -/
def insertedSounds (es : List SysEvent) : List Sound :=
  es.filterMap fun e =>
    match e with
    | .client _ (.noiseAdd s) => some s
    | _ => none

/-- Whether socket.io delivers an emission with addressing `t` to the
connected socket `c`, given the registry `conns`: `io.emit` reaches every
registered socket, `socket.broadcast.emit` every registered socket other
than the sender, `socket.emit` only the addressee. -/
def deliveredTo (conns : List ConnId) (t : Target) (c : ConnId) : Bool :=
  conns.contains c &&
    (match t with
     | .all => true
     | .allExceptSender sender => c != sender
     | .onlyTo x => c == x)

/-- Body of `GET /health`:
`{status:'ok', clients: io.engine.clientsCount, messages: state.messages.length,
sounds: state.sounds.length, hasCanvas: !!state.canvasData}`. -/
def healthBody (sys : SystemState) : JValue :=
  .obj [("status", .str "ok"),
        ("clients", .num (sys.conns.length : Int)),
        ("messages", .num (sys.store.messages.length : Int)),
        ("sounds", .num (sys.store.sounds.length : Int)),
        ("hasCanvas", .bool (jsTruthy sys.store.canvasData))]

/-- The `GET /health` request handler: it produces the body and leaves
the process state untouched. -/
def getHealth (sys : SystemState) : JValue × SystemState := (healthBody sys, sys)

/-- A string that is empty after trimming: every character is whitespace
(this is exactly when JavaScript trim returns the empty string). -/
def blankAfterTrim (s : String) : Bool := s.data.all Char.isWhitespace

/-- A well-formed sample chat message. -/
def sampleMsg : Message := ⟨1, "alice", "hi", 0⟩

/-- A whitespace-only chat message, blank after trimming. -/
def blankMsg : Message := ⟨2, "carol", "   ", 1⟩

/-- A sound whose payload is one byte over 1 MiB. -/
def oversizedSound : Sound := ⟨7, "bob", String.mk (List.replicate 1048577 'a'), 0⟩

/-- A state whose canvas was last set by a `canvas:update` carrying the
empty string. -/
def emptyStringCanvasSys : SystemState :=
  { store := { messages := [], sounds := [], canvasData := some "" }, conns := [] }

/-- A state whose canvas holds a drawing. -/
def drawnCanvasState : ServerState :=
  { messages := [], sounds := [], canvasData := some "P" }

/-! ## Basic properties of `sliceLast` -/

theorem sliceLast_length (k : Nat) (l : List α) :
    (sliceLast k l).length = min k l.length := by
  simp [sliceLast]
  omega

theorem sliceLast_of_length_le (k : Nat) (l : List α) (h : l.length ≤ k) :
    sliceLast k l = l := by
  simp [sliceLast, Nat.sub_eq_zero_of_le h]

theorem sliceLast_append_singleton (k : Nat) (hk : 1 ≤ k) (l : List α) (m : α) :
    sliceLast k (l ++ [m]) = sliceLast (k - 1) l ++ [m] := by
  have h : l.length + 1 - k = l.length - (k - 1) := by omega
  unfold sliceLast
  rw [List.length_append, List.length_singleton,
    List.drop_append_of_le_length (by omega), h]

/-- The push-then-trim pattern of the two log handlers: pushing onto a
log that is the `k`-tail of the insertion history `L` and trimming to the
last `k` yields the `k`-tail of the extended history `L ++ [m]`. -/
theorem pushTrim (k : Nat) (hk : 1 ≤ k) (L : List α) (m : α) :
    (if (sliceLast k L ++ [m]).length > k then sliceLast k (sliceLast k L ++ [m])
     else sliceLast k L ++ [m]) = sliceLast k (L ++ [m]) := by
  have hlen : (sliceLast k L).length = min k L.length := sliceLast_length k L
  rw [List.length_append, List.length_singleton, hlen]
  by_cases hc : L.length < k
  · rw [if_neg (by omega)]
    rw [sliceLast_of_length_le k L (by omega),
      sliceLast_of_length_le k (L ++ [m])
        (by rw [List.length_append, List.length_singleton]; omega)]
  · push_neg at hc
    rw [if_pos (by omega)]
    rw [sliceLast_append_singleton k hk, sliceLast_append_singleton k hk]
    have hd : (List.drop (L.length - k) L).length = k := by
      rw [List.length_drop]; omega
    unfold sliceLast
    rw [List.drop_drop]
    have h3 : L.length - k + ((List.drop (L.length - k) L).length - (k - 1))
        = L.length - (k - 1) := by
      rw [hd]; omega
    rw [h3]

/-! ## Per-handler facts -/

theorem onChatMessage_messages (st : ServerState) (m : Message)
    (L : List Message) (h : st.messages = sliceLast 100 L) :
    (onChatMessage st m).1.messages = sliceLast 100 (L ++ [m]) := by
  simp only [onChatMessage]
  rw [h]
  exact pushTrim 100 (by omega) L m

theorem onNoiseAdd_sounds (st : ServerState) (s : Sound)
    (S : List Sound) (h : st.sounds = sliceLast 30 S) :
    (onNoiseAdd st s).1.sounds = sliceLast 30 (S ++ [s]) := by
  simp only [onNoiseAdd]
  rw [h]
  exact pushTrim 30 (by omega) S s

/-! ## The log invariant over arbitrary runs -/

/-- Main run lemma: if the two logs are the 100- and 30-tails of the
insertion histories `L` and `S`, they stay so along any sequence of
steps, the histories extended by the inserted items. -/
theorem sysRun_logs (es : List SysEvent) : ∀ (sys : SystemState)
    (L : List Message) (S : List Sound),
    sys.store.messages = sliceLast 100 L →
    sys.store.sounds = sliceLast 30 S →
    (sysRun sys es).store.messages = sliceLast 100 (L ++ insertedMessages es) ∧
    (sysRun sys es).store.sounds = sliceLast 30 (S ++ insertedSounds es) := by
  induction es with
  | nil =>
      intro sys L S hM hS
      simp [sysRun, insertedMessages, insertedSounds, hM, hS]
  | cons e es ih =>
      intro sys L S hM hS
      have hstep : sysRun sys (e :: es) = sysRun (sysStep sys e).1 es := rfl
      rw [hstep]
      cases e with
      | connect c =>
          have := ih { sys with conns := sys.conns ++ [c] } L S hM hS
          simpa [sysStep, insertedMessages, insertedSounds] using this
      | disconnect c =>
          have := ih { sys with conns := sys.conns.erase c } L S hM hS
          simpa [sysStep, insertedMessages, insertedSounds] using this
      | client sender ev =>
          cases ev with
          | chatMessage m =>
              have hM' := onChatMessage_messages sys.store m L hM
              have hS' : (onChatMessage sys.store m).1.sounds = sliceLast 30 S := by
                simpa [onChatMessage] using hS
              have := ih { sys with store := (onChatMessage sys.store m).1 }
                (L ++ [m]) S hM' hS'
              simpa [sysStep, dispatch, insertedMessages, insertedSounds,
                List.append_assoc] using this
          | noiseAdd s =>
              have hS' := onNoiseAdd_sounds sys.store s S hS
              have hM' : (onNoiseAdd sys.store s).1.messages = sliceLast 100 L := by
                simpa [onNoiseAdd] using hM
              have := ih { sys with store := (onNoiseAdd sys.store s).1 }
                L (S ++ [s]) hM' hS'
              simpa [sysStep, dispatch, insertedMessages, insertedSounds,
                List.append_assoc] using this
          | canvasUpdate d =>
              have := ih { sys with store := (onCanvasUpdate sender sys.store d).1 }
                L S (by simpa [onCanvasUpdate] using hM)
                (by simpa [onCanvasUpdate] using hS)
              simpa [sysStep, dispatch, insertedMessages, insertedSounds] using this
          | canvasClear =>
              have := ih { sys with store := (onCanvasClear sys.store).1 }
                L S (by simpa [onCanvasClear] using hM)
                (by simpa [onCanvasClear] using hS)
              simpa [sysStep, dispatch, insertedMessages, insertedSounds] using this

/-- The oversized payload really is one byte over 1 MiB. -/
theorem oversizedSound_length : oversizedSound.data.length = 1048577 := by
  show (String.mk (List.replicate 1048577 'a')).length = 1048577
  rw [String.length]
  exact List.length_replicate 1048577 'a'

/-- Whatever the current log, the chat handler leaves the message log
equal to the 100-tail of the old log extended by the new message. -/
theorem onChatMessage_pushes (st : ServerState) (m : Message) :
    (onChatMessage st m).1.messages = sliceLast 100 (st.messages ++ [m]) := by
  simp only [onChatMessage]
  by_cases hc : (st.messages ++ [m]).length > 100
  · rw [if_pos hc]
  · rw [if_neg hc, sliceLast_of_length_le 100 _ (by omega)]

/-- Whatever the current log, the noise handler leaves the sound log
equal to the 30-tail of the old log extended by the new sound. -/
theorem onNoiseAdd_pushes (st : ServerState) (s : Sound) :
    (onNoiseAdd st s).1.sounds = sliceLast 30 (st.sounds ++ [s]) := by
  simp only [onNoiseAdd]
  by_cases hc : (st.sounds ++ [s]).length > 30
  · rw [if_pos hc]
  · rw [if_neg hc, sliceLast_of_length_le 30 _ (by omega)]

/-! ## The claims -/

/-- Claim C3: along every sequence of process steps starting from the
initial state, the message log always has length at most 100 and equals
the most recent 100 inserted messages in arrival order, and the sound
log always has length at most 30 and equals the most recent 30 inserted
sounds in arrival order. -/
theorem c3_log_bounds_and_tails (es : List SysEvent) :
    (sysRun initialSystem es).store.messages
        = sliceLast 100 (insertedMessages es) ∧
    (sysRun initialSystem es).store.messages.length ≤ 100 ∧
    (sysRun initialSystem es).store.sounds
        = sliceLast 30 (insertedSounds es) ∧
    (sysRun initialSystem es).store.sounds.length ≤ 30 := by
  have h := sysRun_logs es initialSystem [] []
    (by simp [initialSystem, initialState, sliceLast])
    (by simp [initialSystem, initialState, sliceLast])
  simp only [List.nil_append] at h
  refine ⟨h.1, ?_, h.2, ?_⟩
  · rw [h.1, sliceLast_length]; omega
  · rw [h.2, sliceLast_length]; omega

/-- Claim C9: each event handler mutates only its own collection:
the chat handler leaves sounds and canvas unchanged, the noise handler
leaves messages and canvas unchanged, and the two canvas handlers leave
messages and sounds unchanged. -/
theorem c9_handlers_frame (st : ServerState) (sender : ConnId)
    (m : Message) (s : Sound) (d : Option String) :
    ((onChatMessage st m).1.sounds = st.sounds ∧
     (onChatMessage st m).1.canvasData = st.canvasData) ∧
    ((onNoiseAdd st s).1.messages = st.messages ∧
     (onNoiseAdd st s).1.canvasData = st.canvasData) ∧
    ((onCanvasUpdate sender st d).1.messages = st.messages ∧
     (onCanvasUpdate sender st d).1.sounds = st.sounds) ∧
    ((onCanvasClear st).1.messages = st.messages ∧
     (onCanvasClear st).1.sounds = st.sounds) := by
  simp [onChatMessage, onNoiseAdd, onCanvasUpdate, onCanvasClear]

/-- Claim C4: a connecting socket is sent exactly one `init` event,
addressed only to itself, whose payload is the snapshot of the store at
that instant (last 50 messages, last 20 sounds, current canvas value),
and after registration the new socket is among the receivers of events
addressed to it. -/
theorem c4_init_hydration (sys : SystemState) (c : ConnId) :
    (sysStep sys (SysEvent.connect c)).2 =
      [⟨OutEvent.init (sliceLast 50 sys.store.messages)
          (sliceLast 20 sys.store.sounds) sys.store.canvasData,
        Target.onlyTo c⟩] ∧
    deliveredTo (sysStep sys (SysEvent.connect c)).1.conns
      (Target.onlyTo c) c = true := by
  constructor
  · rfl
  · simp [sysStep, deliveredTo]

/-- Claim C10: every `init` emission produced for a new connection
carries exactly the `GET /api/messages` body as its message list and the
`GET /api/sounds` body as its sound list, evaluated on the same state. -/
theorem c10_init_equals_api (st : ServerState) (c : ConnId)
    (ms : List Message) (ss : List Sound) (cd : Option String) (t : Target)
    (h : (⟨OutEvent.init ms ss cd, t⟩ : Emission) ∈ onConnection st c) :
    ms = apiMessages st ∧ ss = apiSounds st := by
  simp only [onConnection, List.mem_singleton, Emission.mk.injEq,
    OutEvent.init.injEq] at h
  exact ⟨h.1.1, h.1.2.1⟩

/-- Witness for claim C10 at a concrete one-message state. -/
theorem c10_init_equals_api_witness :
    ((⟨OutEvent.init [sampleMsg] [] none, Target.onlyTo 5⟩ : Emission)
        ∈ onConnection ⟨[sampleMsg], [], none⟩ 5) ∧
    ([sampleMsg] = apiMessages ⟨[sampleMsg], [], none⟩ ∧
     [] = apiSounds ⟨[sampleMsg], [], none⟩) := by
  have hmem : (⟨OutEvent.init [sampleMsg] [] none, Target.onlyTo 5⟩ : Emission)
      ∈ onConnection ⟨[sampleMsg], [], none⟩ 5 := by
    simp [onConnection, sliceLast]
  exact ⟨hmem, c10_init_equals_api _ 5 _ _ _ _ hmem⟩

/-- Claim C5: a `canvas:update` broadcast is addressed to all sockets
except the sender and is delivered to a socket exactly when it is
registered and is not the sender; a `canvas:clear` broadcast is
addressed to all sockets and is delivered to every registered socket,
the originator included. -/
theorem c5_canvas_fanout (sender : ConnId) (st : ServerState)
    (d : Option String) (conns : List ConnId) (c : ConnId) :
    (onCanvasUpdate sender st d).2 =
      [⟨OutEvent.canvasUpdate d, Target.allExceptSender sender⟩] ∧
    (deliveredTo conns (Target.allExceptSender sender) c = true ↔
      c ∈ conns ∧ c ≠ sender) ∧
    (onCanvasClear st).2 = [⟨OutEvent.canvasClear, Target.all⟩] ∧
    (deliveredTo conns Target.all c = true ↔ c ∈ conns) := by
  refine ⟨rfl, ?_, rfl, ?_⟩ <;> simp [deliveredTo]

/-- Claim C7: after appending 101 chat messages to an initially empty
store, `GET /api/messages` returns exactly 50 entries, namely the last
50 insertions in arrival order. -/
theorem c7_api_messages_after_101 (ms : List Message) (h : ms.length = 101) :
    apiMessages (sysRun initialSystem
        (ms.map fun m => SysEvent.client 0 (ClientEvent.chatMessage m))).store
      = sliceLast 50 ms ∧
    (apiMessages (sysRun initialSystem
        (ms.map fun m => SysEvent.client 0 (ClientEvent.chatMessage m))).store).length
      = 50 := by
  have hins : insertedMessages
      (ms.map fun m => SysEvent.client 0 (ClientEvent.chatMessage m)) = ms := by
    simp [insertedMessages, List.filterMap_map, Function.comp_def]
  have hlogs := sysRun_logs
    (ms.map fun m => SysEvent.client 0 (ClientEvent.chatMessage m))
    initialSystem [] []
    (by simp [initialSystem, initialState, sliceLast])
    (by simp [initialSystem, initialState, sliceLast])
  have hmsg : (sysRun initialSystem
      (ms.map fun m => SysEvent.client 0 (ClientEvent.chatMessage m))).store.messages
      = sliceLast 100 ms := by
    simpa [hins] using hlogs.1
  have hapi : apiMessages (sysRun initialSystem
      (ms.map fun m => SysEvent.client 0 (ClientEvent.chatMessage m))).store
      = sliceLast 50 ms := by
    unfold apiMessages
    rw [hmsg]
    unfold sliceLast
    rw [List.length_drop, List.drop_drop, h]
  refine ⟨hapi, ?_⟩
  rw [hapi, sliceLast_length, h]
  omega

/-- Witness for claim C7 on a concrete list of 101 messages. -/
theorem c7_api_messages_after_101_witness :
    (List.replicate 101 sampleMsg).length = 101 ∧
    (apiMessages (sysRun initialSystem
        ((List.replicate 101 sampleMsg).map fun m =>
          SysEvent.client 0 (ClientEvent.chatMessage m))).store
      = sliceLast 50 (List.replicate 101 sampleMsg) ∧
    (apiMessages (sysRun initialSystem
        ((List.replicate 101 sampleMsg).map fun m =>
          SysEvent.client 0 (ClientEvent.chatMessage m))).store).length
      = 50) :=
  ⟨by simp, c7_api_messages_after_101 (List.replicate 101 sampleMsg) (by simp)⟩

/-- Counterexample to claim C1: a `noise:add` whose payload is one byte
over 1 MiB is not rejected — the sound log changes and a broadcast is
emitted. -/
theorem c1_counterexample :
    1048576 < oversizedSound.data.length ∧
    (onNoiseAdd initialState oversizedSound).1.sounds ≠ initialState.sounds ∧
    (onNoiseAdd initialState oversizedSound).2 ≠ [] := by
  refine ⟨?_, ?_, ?_⟩
  · rw [oversizedSound_length]; omega
  · simp [onNoiseAdd, initialState]
  · simp [onNoiseAdd]

/-- Claim C1 as amended: the server performs no payload-size validation,
so a `noise:add` event whose payload exceeds 1 MiB is appended to the
sound log (trimmed to the last 30) and a `noise:add` broadcast is
emitted to all connections; the handler is total, so the process does
not crash. -/
theorem c1_amended_no_size_validation (st : ServerState) (s : Sound)
    (h : 1048576 < s.data.length) :
    (onNoiseAdd st s).1.sounds = sliceLast 30 (st.sounds ++ [s]) ∧
    s ∈ (onNoiseAdd st s).1.sounds ∧
    (onNoiseAdd st s).2 = [⟨OutEvent.noiseAdd s, Target.all⟩] := by
  refine ⟨onNoiseAdd_pushes st s, ?_, rfl⟩
  rw [onNoiseAdd_pushes st s, sliceLast_append_singleton 30 (by omega)]
  simp

/-- Witness for the amended claim C1 at the concrete oversized sound. -/
theorem c1_amended_no_size_validation_witness :
    1048576 < oversizedSound.data.length ∧
    ((onNoiseAdd initialState oversizedSound).1.sounds
        = sliceLast 30 (initialState.sounds ++ [oversizedSound]) ∧
     oversizedSound ∈ (onNoiseAdd initialState oversizedSound).1.sounds ∧
     (onNoiseAdd initialState oversizedSound).2
        = [⟨OutEvent.noiseAdd oversizedSound, Target.all⟩]) := by
  have hsize : 1048576 < oversizedSound.data.length := by
    rw [oversizedSound_length]; omega
  exact ⟨hsize, c1_amended_no_size_validation initialState oversizedSound hsize⟩

/-- Counterexample to claim C2: a whitespace-only `chat:message` is not
dropped — the message log changes and a broadcast is emitted. -/
theorem c2_counterexample :
    blankAfterTrim blankMsg.text = true ∧
    (onChatMessage initialState blankMsg).1.messages ≠ initialState.messages ∧
    (onChatMessage initialState blankMsg).2 ≠ [] := by
  refine ⟨by decide, ?_, ?_⟩
  · simp [onChatMessage, initialState]
  · simp [onChatMessage]

/-- Claim C2 as amended: the server performs no empty-text validation,
so a `chat:message` whose text is empty after trimming is appended to
the message log (trimmed to the last 100) and a `chat:message` broadcast
is emitted to all connections. -/
theorem c2_amended_no_empty_text_drop (st : ServerState) (m : Message)
    (h : blankAfterTrim m.text = true) :
    (onChatMessage st m).1.messages = sliceLast 100 (st.messages ++ [m]) ∧
    m ∈ (onChatMessage st m).1.messages ∧
    (onChatMessage st m).2 = [⟨OutEvent.chatMessage m, Target.all⟩] := by
  refine ⟨onChatMessage_pushes st m, ?_, rfl⟩
  rw [onChatMessage_pushes st m, sliceLast_append_singleton 100 (by omega)]
  simp

/-- Witness for the amended claim C2 at the concrete blank message. -/
theorem c2_amended_no_empty_text_drop_witness :
    blankAfterTrim blankMsg.text = true ∧
    ((onChatMessage initialState blankMsg).1.messages
        = sliceLast 100 (initialState.messages ++ [blankMsg]) ∧
     blankMsg ∈ (onChatMessage initialState blankMsg).1.messages ∧
     (onChatMessage initialState blankMsg).2
        = [⟨OutEvent.chatMessage blankMsg, Target.all⟩]) :=
  ⟨by decide, c2_amended_no_empty_text_drop initialState blankMsg (by decide)⟩

/-- Counterexample to claim C6: a `canvas:update` with an absent payload
is not dropped — it overwrites the stored drawing with the absent value
and still emits a broadcast. -/
theorem c6_counterexample :
    (onCanvasUpdate 0 drawnCanvasState none).1.canvasData
      ≠ drawnCanvasState.canvasData ∧
    (onCanvasUpdate 0 drawnCanvasState none).2 ≠ [] := by
  constructor <;> simp [onCanvasUpdate, drawnCanvasState]

/-- Claim C6 as amended: the server performs no payload-presence check:
every `canvas:update` event, its payload present or absent, overwrites
the canvas value with its payload and emits a `canvas:update` broadcast
to all connections except the sender. -/
theorem c6_amended_update_unconditional (sender : ConnId) (st : ServerState)
    (d : Option String) :
    (onCanvasUpdate sender st d).1.canvasData = d ∧
    (onCanvasUpdate sender st d).2 =
      [⟨OutEvent.canvasUpdate d, Target.allExceptSender sender⟩] ∧
    (onCanvasUpdate sender st d).2 ≠ [] := by
  refine ⟨rfl, rfl, by simp [onCanvasUpdate]⟩

/-- Counterexample to claim C8: the connection-count field of the
`GET /health` body is named `clients`, not `connections`; moreover, with
the canvas set to the empty string the body reports `hasCanvas: false`
although a canvas value is set. -/
theorem c8_counterexample :
    (getHealth emptyStringCanvasSys).1 =
      JValue.obj [("status", JValue.str "ok"), ("clients", JValue.num 0),
        ("messages", JValue.num 0), ("sounds", JValue.num 0),
        ("hasCanvas", JValue.bool false)] ∧
    emptyStringCanvasSys.store.canvasData ≠ none ∧
    "connections" ∉ jKeys (getHealth emptyStringCanvasSys).1 := by
  refine ⟨rfl, by simp [emptyStringCanvasSys], by decide⟩

/-- Claim C8 as amended: `GET /health` mutates nothing and returns the
object `{status, clients, messages, sounds, hasCanvas}` — the
connection-count field is named `clients` — where `clients` is the
number of registered connections, `messages` and `sounds` are the
current log lengths, and `hasCanvas` is the JavaScript truthiness of the
canvas value: true exactly when the canvas is set to a non-empty blob. -/
theorem c8_amended_health_shape (sys : SystemState) :
    (getHealth sys).2 = sys ∧
    (getHealth sys).1 = JValue.obj
      [("status", JValue.str "ok"),
       ("clients", JValue.num (sys.conns.length : Int)),
       ("messages", JValue.num (sys.store.messages.length : Int)),
       ("sounds", JValue.num (sys.store.sounds.length : Int)),
       ("hasCanvas", JValue.bool (jsTruthy sys.store.canvasData))] ∧
    (jsTruthy sys.store.canvasData = true ↔
      ∃ s, sys.store.canvasData = some s ∧ s ≠ "") := by
  refine ⟨rfl, rfl, ?_⟩
  cases h : sys.store.canvasData <;> simp [jsTruthy]

end PiCaptive
